import Mathlib

/-
Verification development for the Linux IPC transport core of rls-vfs
(src/rls-vfs/src/ipc/linux/mod.rs).

The Rust source is shallowly embedded: bytes are `Nat`s (values kept below
256 where the code produces them), byte buffers are `List Nat`, machine
integer casts such as `as u32` are modelled by `% 2 ^ 32`, fallible
operations return `Option`/`Except`, and OS nondeterminism (how many bytes
a single non-blocking `read`/`write` syscall transfers) is passed in
explicitly as data (chunk lists / write schedules).  The payload codec
(the external `bincode` crate) is treated as the spec directs: an opaque
encode/decode pair passed as parameters where possible, and modelled
concretely (little-endian fixed-width integers, u64-length-prefixed
strings — bincode's default configuration) where a concrete evaluation
needs it.
-/

instance instDecEqExcept {ε α : Type} [DecidableEq ε] [DecidableEq α] :
    DecidableEq (Except ε α)
  | Except.error e1, Except.error e2 =>
    if h : e1 = e2 then Decidable.isTrue (h ▸ rfl)
    else Decidable.isFalse (fun hc => h (Except.error.inj hc))
  | Except.error _, Except.ok _ => Decidable.isFalse Except.noConfusion
  | Except.ok _, Except.error _ => Decidable.isFalse Except.noConfusion
  | Except.ok a1, Except.ok a2 =>
    if h : a1 = a2 then Decidable.isTrue (h ▸ rfl)
    else Decidable.isFalse (fun hc => h (Except.ok.inj hc))

/-! ## Generic association-list helpers (model of `HashMap` as used by the server) -/

def alookup {κ β : Type} [DecidableEq κ] (k : κ) : List (κ × β) → Option β
  | [] => none
  | (k1, v1) :: rest => if k1 = k then some v1 else alookup k rest

def aerase {κ β : Type} [DecidableEq κ] (k : κ) : List (κ × β) → List (κ × β)
  | [] => []
  | (k1, v1) :: rest => if k1 = k then rest else (k1, v1) :: aerase k rest

/-- `HashMap::insert` semantics: replace the value when the key is present. -/
def aupdate {κ β : Type} [DecidableEq κ] (k : κ) (v : β) : List (κ × β) → List (κ × β)
  | [] => [(k, v)]
  | (k1, v1) :: rest => if k1 = k then (k, v) :: rest else (k1, v1) :: aupdate k v rest

/-- Removal of a published shared-memory name (`shm_unlink`) from the OS name set. -/
def removeName (n : List Nat) : List (List Nat) → List (List Nat)
  | [] => []
  | m :: rest => if m = n then removeName n rest else m :: removeName n rest

/-! ## Wire-level integer encodings

`bincode`'s default configuration writes fixed-width little-endian
integers; the length prefix of every frame is a `u32`
(`bincode::serialize(&(len as u32))`), strings carry a `u64` length. -/

/-- The four little-endian bytes of `n` as a `u32` (`bincode::serialize::<u32>`). -/
def u32le (n : Nat) : List Nat :=
  [n % 256, n / 256 % 256, n / 65536 % 256, n / 16777216 % 256]

/-- `bincode::deserialize::<u32>` on a slice: needs at least 4 bytes, reads them
little-endian (trailing bytes are ignored by bincode's legacy `deserialize`). -/
def readU32 : List Nat → Option Nat
  | b0 :: b1 :: b2 :: b3 :: _ => some (b0 + 256 * b1 + 65536 * b2 + 16777216 * b3)
  | _ => none

/-- The eight little-endian bytes of `n` as a `u64`. -/
def u64le (n : Nat) : List Nat :=
  [n % 256, n / 256 % 256, n / 65536 % 256, n / 16777216 % 256,
   n / 4294967296 % 256, n / 1099511627776 % 256,
   n / 281474976710656 % 256, n / 72057594037927936 % 256]

/-- `bincode` read of a `u64` from a slice (at least 8 bytes required). -/
def readU64 : List Nat → Option Nat
  | b0 :: b1 :: b2 :: b3 :: b4 :: b5 :: b6 :: b7 :: _ =>
    some (b0 + 256 * b1 + 65536 * b2 + 16777216 * b3 + 4294967296 * b4 +
      1099511627776 * b5 + 281474976710656 * b6 + 72057594037927936 * b7)
  | _ => none

theorem readU32_u32le_append (n : Nat) (t : List Nat) :
    readU32 (u32le n ++ t) = some (n % 2 ^ 32) := by
  simp only [u32le, List.cons_append, List.nil_append, readU32, Option.some.injEq]
  omega

theorem u32le_length (n : Nat) : (u32le n).length = 4 := rfl

/-! ## The blocking framed codec (`blocking_read_impl` / `blocking_write_impl`)

`blocking_read_impl` repeatedly issues blocking `read` syscalls, appending
whatever each returns to the carried buffer `rbuf`, first until at least 4
bytes are present, then (after decoding the `u32` length prefix `hdr`)
until `hdr + 4` bytes are present; it then decodes the payload slice
`rbuf[4..hdr+4]` and keeps the surplus `rbuf[hdr+4..]` for the next call.
The successive syscall results are modelled by the list `chunks`; `none`
means the byte stream never supplies enough bytes (the real call would
then never return) or that a decode step failed with a
`DeserializeError`. -/

def fillTo (target : Nat) : List Nat → List (List Nat) → Option (List Nat × List (List Nat))
  | rbuf, [] => if target ≤ rbuf.length then some (rbuf, []) else none
  | rbuf, c :: cs =>
    if target ≤ rbuf.length then some (rbuf, c :: cs) else fillTo target (rbuf ++ c) cs

def blocking_read_impl {α : Type} (dec : List Nat → Option α) (rbuf : List Nat)
    (chunks : List (List Nat)) : Option (α × List Nat × List (List Nat)) :=
  match fillTo 4 rbuf chunks with
  | none => none
  | some (b1, ch1) =>
    match readU32 b1 with
    | none => none
    | some hdr =>
      match fillTo (hdr + 4) b1 ch1 with
      | none => none
      | some (b2, ch2) =>
        match dec ((b2.drop 4).take hdr) with
        | none => none
        | some msg => some (msg, b2.drop (hdr + 4), ch2)

/-- `blocking_write_impl`: serialize the payload, serialize its length as a
`u32`, append header then payload to the carried write buffer, `write_all`
the whole buffer to the pipe, then clear the buffer.  The result is
(bytes handed to `write_all`, buffer after the call). -/
def blocking_write_impl {α : Type} (enc : α → List Nat) (t : α) (wbuf : List Nat) :
    List Nat × List Nat :=
  let ext2 := enc t
  let ext1 := u32le ext2.length
  (wbuf ++ ext1 ++ ext2, [])

/-! ## The `Fd` resource handle -/

/-- OS error carried by `LibcError`; only the errno is modelled
(the source also records the syscall name). -/
structure LibcError where
  errno : Int
deriving DecidableEq

def EBADF : Int := 9
def ENOENT : Int := 2
def EEXIST : Int := 17

inductive Fd where
  | closed : Fd
  | opened (fd : Int) : Fd
deriving DecidableEq

/-- `Fd::close`.  `os fd = none` means the `close(2)` syscall succeeds,
`os fd = some e` that it fails with errno `e`.  Returns the handle state
after the call together with the call's result. -/
def Fd.close (os : Int → Option Int) : Fd → Fd × Except LibcError Unit
  | Fd.closed => (Fd.closed, Except.error ⟨EBADF⟩)
  | Fd.opened fd =>
    match os fd with
    | none => (Fd.closed, Except.ok ())
    | some e => (Fd.opened fd, Except.error ⟨e⟩)

/-- `Fd::try_close`: like `close`, but an already-closed handle succeeds silently. -/
def Fd.try_close (os : Int → Option Int) : Fd → Fd × Except LibcError Unit
  | Fd.closed => (Fd.closed, Except.ok ())
  | Fd.opened fd => Fd.close os (Fd.opened fd)

/-- `Fd::try_clone`: `dup(2)` on an open handle (`dup fd` is its result);
a closed handle yields another closed handle without any syscall. -/
def Fd.try_clone (dup : Int → Except LibcError Int) : Fd → Except LibcError Fd
  | Fd.closed => Except.ok Fd.closed
  | Fd.opened fd =>
    match dup fd with
    | Except.ok fd1 => Except.ok (Fd.opened fd1)
    | Except.error e => Except.error e

/-! ## Protocol messages and their payload encodings

`VfsRequestMsg` and `VfsReplyMsg` are declared in the ipc module above
this file's source (not under src/). -/

/-- Modelled from the spec: a request is `OpenFile(path)` or
`CloseFile(path)`; the path is its byte string. -/
inductive VfsRequestMsg where
  | openFile (path : List Nat) : VfsRequestMsg
  | closeFile (path : List Nat) : VfsRequestMsg
deriving DecidableEq

/-- Modelled from the spec: a reply carries the shared-memory region name
(a null-terminated string), the mapped length as a `u32`, and the opaque
per-file user data. -/
structure VfsReplyMsg (U : Type) where
  path : List Nat
  length : Nat
  user_data : U
deriving DecidableEq

/-- Modelled from the spec: `bincode`'s default layout for
`VfsRequestMsg` — a `u32` little-endian variant tag (0 = OpenFile,
1 = CloseFile) followed by the path string as a `u64` length plus its
bytes. -/
def encReq : VfsRequestMsg → List Nat
  | VfsRequestMsg.openFile p => u32le 0 ++ u64le p.length ++ p
  | VfsRequestMsg.closeFile p => u32le 1 ++ u64le p.length ++ p

/-- Modelled from the spec: `bincode` decode of a `VfsRequestMsg` from a
slice: read the tag, read the string length, require that many bytes;
anything short or an unknown tag is a `DeserializeError` (trailing bytes
are ignored, as by bincode's legacy `deserialize`). -/
def decReq (b : List Nat) : Option VfsRequestMsg :=
  match readU32 b with
  | none => none
  | some tag =>
    match readU64 (b.drop 4) with
    | none => none
    | some n =>
      let body := b.drop 12
      if n ≤ body.length then
        if tag = 0 then some (VfsRequestMsg.openFile (body.take n))
        else if tag = 1 then some (VfsRequestMsg.closeFile (body.take n))
        else none
      else none

/-! ## Error type

One inductive covering the `RlsVfsIpcError` variants the embedded code
can signal.  `libc e` wraps an OS error with errno `e`; `vfsFail` and
`ioFail` stand for errors of the external VFS collaborator and of
`Path::canonicalize`.  `slicePanicModel` marks the place where the Rust
source would panic on an out-of-range slice (`msg_len < 4` in
`handle_read`), and `fuelExhausted` is the artificial out-of-fuel result
of the loop embedding (never reached when the fuel bound passed by
`handle_read` is used). -/
inductive RlsVfsIpcError where
  | libc (errno : Int) : RlsVfsIpcError
  | serializeFail : RlsVfsIpcError
  | deserializeFail : RlsVfsIpcError
  | pipeCloseMiddle : RlsVfsIpcError
  | closeNonOpenedFile : RlsVfsIpcError
  | tokenNotFound : RlsVfsIpcError
  | removeUnknownClient : RlsVfsIpcError
  | getFileFromClosedHandle : RlsVfsIpcError
  | vfsFail : RlsVfsIpcError
  | ioFail : RlsVfsIpcError
  | slicePanicModel : RlsVfsIpcError
  | fuelExhausted : RlsVfsIpcError
deriving DecidableEq

/-! ## Non-blocking outbound drain (`initial_write` / `handle_write`)

A write schedule models the successive non-blocking `write` syscalls of
one pass: `none` is `EWOULDBLOCK`, `some k` means the OS accepted
`min k requested` bytes.  Both source functions pass `&buf[0]` (not
`&buf[start_pos]`) to every syscall, so each accepted chunk is a prefix
of the buffer — this embedding preserves that. -/

def write_from_start (buf : List Nat) (len : Nat) : Nat → List (Option Nat) → Nat × List Nat
  | start, [] => (start, [])
  | start, o :: rest =>
    if start < len then
      match o with
      | none => (start, [])
      | some k =>
        let k1 := min k (len - start)
        if k1 = 0 then (start, [])
        else
          let r := write_from_start buf len (start + k1) rest
          (r.1, buf.take k1 ++ r.2)
    else (start, [])

/-- `initial_write`: drain as much as possible, keep the unwritten tail
(`buf = buf.split_off(start_pos)` reassigned), register write-interest
iff something remains.  Result: (bytes that reached the pipe, buffer
afterwards, write-interest registered). -/
def initial_write (buf : List Nat) (wsched : List (Option Nat)) : List Nat × List Nat × Bool :=
  let r := write_from_start buf buf.length 0 wsched
  (r.2, buf.drop r.1, decide (r.1 < buf.length))

/-- `handle_write`: same drain loop, but the source discards the result of
`buf.split_off(start_pos)` — the buffer is truncated to the *written*
prefix — and then deregisters write-interest iff that truncated buffer is
empty.  Result: (bytes that reached the pipe, buffer afterwards,
write-interest deregistered). -/
def handle_write (buf : List Nat) (wsched : List (Option Nat)) : List Nat × List Nat × Bool :=
  let r := write_from_start buf buf.length 0 wsched
  let buf1 := buf.take r.1
  (r.2, buf1, buf1.isEmpty)

/-! ## Server-side state: regions, registry, connections

`Rc<MapInfo>` sharing is embedded by an arena of regions: a region id is
an index into `ServerState.regions`, whose entry carries the `MapInfo`
(shared-memory name and length), the current `Rc` strong count, and
whether `MapInfo::close` (`shm_unlink`) has run.  `live_maps` holds the
path-keyed weak references (a `Weak::upgrade` succeeds exactly when the
strong count is positive), `shm_names` is the OS-level set of currently
published shared-memory names (`shm_open` with `O_CREAT | O_EXCL` fails
when the name is taken), and each connection's `opened_files` entries are
the strong references. -/

structure MapInfo where
  shm_name : List Nat
  length : Nat
deriving DecidableEq

structure RegionState where
  info : MapInfo
  strong : Nat
  unlinked : Bool
deriving DecidableEq

instance : Inhabited RegionState := ⟨⟨⟨[], 0⟩, 0, false⟩⟩

structure ConnectionInfo where
  opened_files : List (List Nat × Nat)
  read_buf : List Nat
  write_buf : List Nat
  write_registered : Bool
deriving DecidableEq

structure ServerState where
  connection_infos : List (Nat × ConnectionInfo)
  regions : List RegionState
  live_maps : List (List Nat × Nat)
  shm_names : List (List Nat)
  server_pid : Nat
  timestamp : Nat
deriving DecidableEq

/-- Modelled from the spec: the external collaborators the server consumes —
`Path::canonicalize` (an OS call), `Vfs::load_file`, and the
`with_user_data` result; `none` is the respective failure. -/
structure Env (U : Type) where
  canon : List Nat → Option (List Nat)
  load_file : List Nat → Option (List Nat)
  user_data : List Nat → Option U

def regionAt (S : ServerState) (rid : Nat) : RegionState :=
  (S.regions[rid]?).getD default

def incStrong (S : ServerState) (rid : Nat) : ServerState :=
  match S.regions[rid]? with
  | some r => { S with regions := S.regions.set rid { r with strong := r.strong + 1 } }
  | none => S

def decStrong (S : ServerState) (rid : Nat) : ServerState :=
  match S.regions[rid]? with
  | some r => { S with regions := S.regions.set rid { r with strong := r.strong - 1 } }
  | none => S

/-- Decimal digits of `n` as ASCII bytes (how `format!` renders a number). -/
def natDec (n : Nat) : List Nat := (Nat.toDigits 10 n).map Char.toNat

/-- `generate_shm_name`: the bytes of
`format!("/rls-{}-{}-{}\u{0}", server_pid, path.display(), timestamp)`;
`[47, 114, 108, 115, 45]` spells `/rls-` and `45` is `-`. -/
def generate_shm_name (S : ServerState) (file_path : List Nat) : List Nat :=
  [47, 114, 108, 115, 45] ++ natDec S.server_pid ++ [45] ++ file_path ++ [45] ++
    natDec S.timestamp ++ [0]

/-- `setup_mmap`: generate the region name, load the file bytes from the
VFS, then `MapInfo::open` — publish a fresh segment of that name
(`shm_open` with `O_CREAT | O_EXCL` fails with `EEXIST` if the name is
taken), copy the contents in, and wrap it in a fresh `Rc` (strong count
1).  Returns the new region's id. -/
def setup_mmap {U : Type} (env : Env U) (S : ServerState) (path : List Nat) :
    Except RlsVfsIpcError (ServerState × Nat) :=
  let shm_name := generate_shm_name S path
  match env.load_file path with
  | none => Except.error RlsVfsIpcError.vfsFail
  | some cont =>
    if shm_name ∈ S.shm_names then Except.error (RlsVfsIpcError.libc EEXIST)
    else
      Except.ok ({ S with
        regions := S.regions ++ [⟨⟨shm_name, cont.length⟩, 1, false⟩],
        shm_names := shm_name :: S.shm_names }, S.regions.length)

/-- `try_setup_mmap`: canonicalize the path, look it up in `live_maps`;
a live entry (`Weak::upgrade` succeeds, i.e. strong count positive) is
cloned and returned, a dead or missing entry triggers `setup_mmap` and
(re)insertion of the downgraded reference; finally the user data is
fetched.  On an error the mutated state is discarded, as every error
terminates the event loop in the source. -/
def try_setup_mmap {U : Type} (env : Env U) (S : ServerState) (path0 : List Nat) :
    Except RlsVfsIpcError (ServerState × Nat × U) :=
  match env.canon path0 with
  | none => Except.error RlsVfsIpcError.ioFail
  | some path =>
    let step : Except RlsVfsIpcError (ServerState × Nat) :=
      match alookup path S.live_maps with
      | some rid =>
        if 0 < (regionAt S rid).strong then Except.ok (incStrong S rid, rid)
        else
          match setup_mmap env S path with
          | Except.error e => Except.error e
          | Except.ok (S1, rid1) =>
            Except.ok ({ S1 with live_maps := aupdate path rid1 S1.live_maps }, rid1)
      | none =>
        match setup_mmap env S path with
        | Except.error e => Except.error e
        | Except.ok (S1, rid1) =>
          Except.ok ({ S1 with live_maps := aupdate path rid1 S1.live_maps }, rid1)
    match step with
    | Except.error e => Except.error e
    | Except.ok (S1, rid) =>
      match env.user_data path with
      | none => Except.error RlsVfsIpcError.vfsFail
      | some u => Except.ok (S1, rid, u)

/-- `write_reply`: append `bincode::serialize(&reply_msg)` to the
connection's outbound buffer — the source (a `FIXME` marks the spot)
writes no length header here — and, when the buffer was empty before
(write-fd not registered in the poll), run `initial_write`.  Result:
(connection afterwards, bytes that reached the pipe). -/
def write_reply {U : Type} (encReply : VfsReplyMsg U → List Nat) (wsched : List (Option Nat))
    (ci : ConnectionInfo) (reply : VfsReplyMsg U) : ConnectionInfo × List Nat :=
  let old_len := ci.write_buf.length
  let buf1 := ci.write_buf ++ encReply reply
  if old_len = 0 then
    let r := initial_write buf1 wsched
    ({ ci with write_buf := r.2.1, write_registered := r.2.2 }, r.1)
  else ({ ci with write_buf := buf1 }, [])

/-- `handle_open_request`: set up (or re-use) the region, build the reply
from its name, its length `as u32` and the user data, insert the strong
reference into the connection's open-files table under the path *as the
client sent it* (`HashMap::insert` drops a replaced old reference), and
queue the reply. -/
def handle_open_request {U : Type} (env : Env U) (encReply : VfsReplyMsg U → List Nat)
    (wsched : List (Option Nat)) (S : ServerState) (ci : ConnectionInfo) (path : List Nat) :
    Except RlsVfsIpcError (ServerState × ConnectionInfo × List Nat) :=
  match try_setup_mmap env S path with
  | Except.error e => Except.error e
  | Except.ok (S1, rid, u) =>
    let mi := (regionAt S1 rid).info
    let reply : VfsReplyMsg U := ⟨mi.shm_name, mi.length % 2 ^ 32, u⟩
    let S2 := match alookup path ci.opened_files with
      | some oldRid => decStrong S1 oldRid
      | none => S1
    let ci1 := { ci with opened_files := aupdate path rid ci.opened_files }
    let wr := write_reply encReply wsched ci1 reply
    Except.ok (S2, wr.1, wr.2)

/-- `try_remove_last_map`: called with a strong reference (`mi`) that was
just removed from a table; if it is the sole remaining strong reference
(`Rc::strong_count == 1`), `MapInfo::close` unlinks the shared-memory
name and the `live_maps` entry under `file_path` is removed; in either
case `mi` is dropped at the end of the call (strong count decremented). -/
def try_remove_last_map (S : ServerState) (rid : Nat) (file_path : List Nat) :
    Except RlsVfsIpcError ServerState :=
  let r := regionAt S rid
  if r.strong = 1 then
    if r.info.shm_name ∈ S.shm_names then
      Except.ok { S with
        regions := S.regions.set rid { r with unlinked := true, strong := r.strong - 1 },
        shm_names := removeName r.info.shm_name S.shm_names,
        live_maps := aerase file_path S.live_maps }
    else Except.error (RlsVfsIpcError.libc ENOENT)
  else Except.ok (decStrong S rid)

/-- `handle_close_request`: remove the path from the connection's
open-files table; if it was absent, signal `CloseNonOpenedFile`; if
present, hand the removed strong reference to `try_remove_last_map`. -/
def handle_close_request (S : ServerState) (ci : ConnectionInfo) (path : List Nat) :
    Except RlsVfsIpcError (ServerState × ConnectionInfo) :=
  match alookup path ci.opened_files with
  | some rid =>
    let ci1 := { ci with opened_files := aerase path ci.opened_files }
    match try_remove_last_map S rid path with
    | Except.error e => Except.error e
    | Except.ok S1 => Except.ok (S1, ci1)
  | none => Except.error RlsVfsIpcError.closeNonOpenedFile

/-- `handle_request`: dispatch on the request variant.  The third
component threads the bytes written to the pipe so far during this
`handle_read` pass. -/
def handle_request {U : Type} (env : Env U) (encReply : VfsReplyMsg U → List Nat)
    (wsched : List (Option Nat)) (st : ServerState × ConnectionInfo × List Nat) :
    VfsRequestMsg → Except RlsVfsIpcError (ServerState × ConnectionInfo × List Nat)
  | VfsRequestMsg.openFile path =>
    match handle_open_request env encReply wsched st.1 st.2.1 path with
    | Except.error e => Except.error e
    | Except.ok (S1, ci1, w) => Except.ok (S1, ci1, st.2.2 ++ w)
  | VfsRequestMsg.closeFile path =>
    match handle_close_request st.1 st.2.1 path with
    | Except.error e => Except.error e
    | Except.ok (S1, ci1) => Except.ok (S1, ci1, st.2.2)

/-- Drop of every open-file strong reference during connection teardown
(the `for (file_path, mi) in ci.opened_files.drain()` loop of
`remove_server_end_point`). -/
def drain_opened_files : List (List Nat × Nat) → ServerState → Except RlsVfsIpcError ServerState
  | [], S => Except.ok S
  | (p, rid) :: rest, S =>
    match try_remove_last_map S rid p with
    | Except.error e => Except.error e
    | Except.ok S1 => drain_opened_files rest S1

/-- `remove_server_end_point`: removing an unknown token is
`RemoveUnknownClient`; otherwise the connection's read (and, if output is
pending, write) registrations are dropped (poll bookkeeping, not part of
this state), every open-file region reference is dropped, and the
connection leaves the table. -/
def remove_server_end_point (S : ServerState) (tok : Nat) : Except RlsVfsIpcError ServerState :=
  match alookup tok S.connection_infos with
  | none => Except.error RlsVfsIpcError.removeUnknownClient
  | some ci =>
    match drain_opened_files ci.opened_files S with
    | Except.error e => Except.error e
    | Except.ok S1 => Except.ok { S1 with connection_infos := aerase tok S1.connection_infos }

/-! ## Non-blocking inbound path (`handle_read`) and the event loop

`handle_read` first drains the pipe with non-blocking reads until
`EWOULDBLOCK` or a zero-byte read (EOF); the bytes obtained and the EOF
flag are inputs here (`readData`, `metEof`).  It then walks the
accumulated buffer: while at least 4 bytes remain past `start_pos` it
decodes `msg_len` from `buf[start..start+4]`, stops if
`msg_len + start_pos` exceeds the buffer, otherwise decodes a request
from the slice `buf[start+4 .. start+msg_len]` — note the upper bound
counts `msg_len` from the *frame start*, so `msg_len` is treated as the
total frame length including its own 4 header bytes — executes it, and
advances `start_pos` by `msg_len`.  A `msg_len < 4` would make the Rust
slice expression panic (`slicePanicModel`).  The loop is written on
explicit fuel; `handle_read` passes `buf.length + 1`, which can never run
out since every continuing iteration advances `start_pos` by at least 4. -/

def handleLoop {μ σ : Type} (dec : List Nat → Option μ)
    (exec : σ → μ → Except RlsVfsIpcError σ) (buf : List Nat) :
    Nat → Nat → σ → Except RlsVfsIpcError (σ × Nat)
  | 0, _, _ => Except.error RlsVfsIpcError.fuelExhausted
  | fuel + 1, start, s =>
    if start + 4 ≤ buf.length then
      match readU32 (buf.drop start) with
      | none => Except.error RlsVfsIpcError.deserializeFail
      | some msg_len =>
        if buf.length < msg_len + start then Except.ok (s, start)
        else if msg_len < 4 then Except.error RlsVfsIpcError.slicePanicModel
        else
          match dec ((buf.drop (start + 4)).take (msg_len - 4)) with
          | none => Except.error RlsVfsIpcError.deserializeFail
          | some msg =>
            match exec s msg with
            | Except.error e => Except.error e
            | Except.ok s1 => handleLoop dec exec buf fuel (start + msg_len) s1
    else Except.ok (s, start)

/-- `handle_read` after the drain loop: run the frame loop over the carried
buffer extended by the bytes just read, keep the undecoded remainder
(`buf = buf.split_off(start_pos)`), and on EOF either call the no-op
`finish_read` (remainder empty — the connection's read side will simply
not be used again) or fail with `PipeCloseMiddle`.  Returns the updated
execution state and the remainder buffer. -/
def handle_read {μ σ : Type} (dec : List Nat → Option μ)
    (exec : σ → μ → Except RlsVfsIpcError σ) (rbuf readData : List Nat) (metEof : Bool)
    (s : σ) : Except RlsVfsIpcError (σ × List Nat) :=
  let buf := rbuf ++ readData
  match handleLoop dec exec buf (buf.length + 1) 0 s with
  | Except.error e => Except.error e
  | Except.ok (s1, start) =>
    let rem := buf.drop start
    if metEof then
      if rem.isEmpty then Except.ok (s1, rem)
      else Except.error RlsVfsIpcError.pipeCloseMiddle
    else Except.ok (s1, rem)

/-- One readiness event of the poll, together with the OS nondeterminism of
this iteration: the bytes the non-blocking read drain returns, whether it
ended in EOF, and the write schedule for any writes attempted. -/
structure PollEvent where
  tok : Nat
  readable : Bool
  writable : Bool
  readData : List Nat
  metEof : Bool
  wsched : List (Option Nat)
deriving DecidableEq

/-- The body of `roll_the_loop` for one event: look the token up in
`connection_infos` (`TokenNotFound` if absent), run `handle_read` when
readable and `handle_write` when writable, both propagating errors with
`?`, and store the connection back.  Returns the new server state and
the bytes written to the pipe. -/
def process_event {U : Type} (env : Env U) (encReply : VfsReplyMsg U → List Nat)
    (S : ServerState) (ev : PollEvent) : Except RlsVfsIpcError (ServerState × List Nat) :=
  match alookup ev.tok S.connection_infos with
  | none => Except.error RlsVfsIpcError.tokenNotFound
  | some ci =>
    let step1 : Except RlsVfsIpcError (ServerState × ConnectionInfo × List Nat) :=
      if ev.readable then
        match handle_read decReq (handle_request env encReply ev.wsched) ci.read_buf
            ev.readData ev.metEof (S, ci, []) with
        | Except.error e => Except.error e
        | Except.ok ((S1, ci1, w), rem) => Except.ok (S1, { ci1 with read_buf := rem }, w)
      else Except.ok (S, ci, [])
    match step1 with
    | Except.error e => Except.error e
    | Except.ok (S1, ci1, w1) =>
      let after : ServerState × ConnectionInfo × List Nat :=
        if ev.writable then
          let r := handle_write ci1.write_buf ev.wsched
          let reg := if r.2.2 then false else ci1.write_registered
          (S1, { ci1 with write_buf := r.2.1, write_registered := reg }, w1 ++ r.1)
        else (S1, ci1, w1)
      let S2 := { after.1 with
        connection_infos := aupdate ev.tok after.2.1 after.1.connection_infos }
      Except.ok (S2, after.2.2)

/-- `roll_the_loop`, run on a finite script of readiness events: each event
is processed by `process_event`; an error is returned from the loop (the
`?` in the source), i.e. the whole server event loop terminates with it.
The real loop never returns `Ok`; `Except.ok` here just carries the state
of the still-running loop once the script is exhausted. -/
def roll_the_loop {U : Type} (env : Env U) (encReply : VfsReplyMsg U → List Nat) :
    ServerState → List PollEvent → Except RlsVfsIpcError (ServerState × List Nat)
  | S, [] => Except.ok (S, [])
  | S, ev :: evs =>
    match process_event env encReply S ev with
    | Except.error e => Except.error e
    | Except.ok (S1, w) =>
      match roll_the_loop env encReply S1 evs with
      | Except.error e => Except.error e
      | Except.ok (S2, w2) => Except.ok (S2, w ++ w2)

/-! ## The client-side mapped file handle -/

structure OpenedLinuxVfsIpcFileHandle where
  addr : Nat
  length : Nat
deriving DecidableEq

inductive LinuxVfsIpcFileHandle where
  | opened (h : OpenedLinuxVfsIpcFileHandle) : LinuxVfsIpcFileHandle
  | closed : LinuxVfsIpcFileHandle
deriving DecidableEq

/-- `get_file_ref`: on an open handle, the byte view
`slice::from_raw_parts(handle.addr, handle.length)` of the mapped memory
`mem` (UTF-8 validity is never checked); on a closed handle, the error
`GetFileFromClosedHandle`. -/
def get_file_ref (mem : Nat → Nat) : LinuxVfsIpcFileHandle →
    Except RlsVfsIpcError (List Nat)
  | LinuxVfsIpcFileHandle.opened h =>
    Except.ok ((List.range h.length).map (fun i => mem (h.addr + i)))
  | LinuxVfsIpcFileHandle.closed => Except.error RlsVfsIpcError.getFileFromClosedHandle

/-! ## Concrete instantiations used by evaluations and witnesses -/

/-- A concrete collaborator environment: canonicalization is the identity,
every file loads as the single byte `97`, the user data is `()`. -/
def envUnit : Env Unit := ⟨fun p => some p, fun _ => some [97], fun _ => some ()⟩

/-- A concrete opaque reply payload codec (bincode-style layout of
`VfsReplyMsg<()>`: u64-length-prefixed name string, u32 length, unit). -/
def encReplyU : VfsReplyMsg Unit → List Nat :=
  fun r => u64le r.path.length ++ r.path ++ u32le r.length

def connEmpty : ConnectionInfo := ⟨[], [], [], false⟩

def replyNode : VfsReplyMsg Unit := ⟨[110], 1, ()⟩

/-- A fresh server (pid 42, timestamp 0) with no connections. -/
def serverFresh : ServerState := ⟨[], [], [], [], 42, 0⟩

/-- A server whose only connection (token 7) has nothing open. -/
def serverOneConn : ServerState := ⟨[(7, connEmpty)], [], [], [], 42, 0⟩

/-- A `CloseFile("p")` frame in `handle_read`'s own framing convention
(header = total frame length 17 = 4 header bytes + 13 payload bytes). -/
def closeFrame17 : List Nat := u32le 17 ++ encReq (VfsRequestMsg.closeFile [112])

/-- The bytes of `"/rls-42-p-0\u{0}"`. -/
def rlsName42p0 : List Nat := [47, 114, 108, 115, 45, 52, 50, 45, 112, 45, 48, 0]

/-- Open `"p"`, drop the sole reference (retiring the region), open `"p"`
again; record both region ids, both shared-memory names and the final
timestamp. -/
def reopen_trace : Option (Nat × List Nat × Nat × List Nat × Nat) :=
  match try_setup_mmap envUnit serverFresh [112] with
  | Except.error _ => none
  | Except.ok (S1, rid0, _) =>
    match try_remove_last_map S1 rid0 [112] with
    | Except.error _ => none
    | Except.ok S2 =>
      match try_setup_mmap envUnit S2 [112] with
      | Except.error _ => none
      | Except.ok (S3, rid1, _) =>
        some (rid0, (regionAt S1 rid0).info.shm_name, rid1,
          (regionAt S3 rid1).info.shm_name, S3.timestamp)

/-- Open `"p"` twice without closing; record both region ids, the number
of allocated regions and the final strong count. -/
def double_open_trace : Option (Nat × Nat × Nat × Nat) :=
  match try_setup_mmap envUnit serverFresh [112] with
  | Except.error _ => none
  | Except.ok (S1, rid0, _) =>
    match try_setup_mmap envUnit S1 [112] with
    | Except.error _ => none
    | Except.ok (S2, rid1, _) =>
      some (rid0, rid1, S2.regions.length, (regionAt S2 rid1).strong)

/-! ## Claim theorems -/

/-- Claim C9: `Fd::close` on an already-closed handle fails with the
invalid-handle error (`EBADF`) and on an open handle (whose `close(2)`
syscall succeeds) releases the descriptor and transitions to `Closed`;
`Fd::try_close` succeeds silently on a closed handle and otherwise
behaves exactly like `close`; `Fd::try_clone` on a closed handle
succeeds with another closed handle. -/
theorem fd_close_discipline (os : Int → Option Int) (dup : Int → Except LibcError Int)
    (fd : Int) (hok : os fd = none) :
    Fd.close os Fd.closed = (Fd.closed, Except.error ⟨EBADF⟩) ∧
    Fd.close os (Fd.opened fd) = (Fd.closed, Except.ok ()) ∧
    Fd.try_close os Fd.closed = (Fd.closed, Except.ok ()) ∧
    Fd.try_close os (Fd.opened fd) = Fd.close os (Fd.opened fd) ∧
    Fd.try_clone dup Fd.closed = Except.ok Fd.closed := by
  refine ⟨rfl, ?_, rfl, rfl, rfl⟩
  simp [Fd.close, hok]

theorem fd_close_discipline_witness :
    ((fun _ : Int => (none : Option Int)) 3 = none) ∧
    (Fd.close (fun _ => none) Fd.closed = (Fd.closed, Except.error ⟨EBADF⟩) ∧
      Fd.close (fun _ => none) (Fd.opened 3) = (Fd.closed, Except.ok ()) ∧
      Fd.try_close (fun _ => none) Fd.closed = (Fd.closed, Except.ok ()) ∧
      Fd.try_close (fun _ => none) (Fd.opened 3) = Fd.close (fun _ => none) (Fd.opened 3) ∧
      Fd.try_clone (fun n => Except.ok n) Fd.closed = Except.ok Fd.closed) :=
  ⟨rfl, fd_close_discipline (fun _ => none) (fun n => Except.ok n) 3 rfl⟩

/-- Claim C10: `get_file_ref` on a closed client-side file handle always
returns `GetFileFromClosedHandle` and never a byte view; on an open
handle it returns a view whose length equals the mapped length recorded
in the handle. -/
theorem get_file_ref_spec (mem : Nat → Nat) (hnd : LinuxVfsIpcFileHandle) :
    (hnd = LinuxVfsIpcFileHandle.closed →
      get_file_ref mem hnd = Except.error RlsVfsIpcError.getFileFromClosedHandle) ∧
    (∀ o, hnd = LinuxVfsIpcFileHandle.opened o →
      ∃ v, get_file_ref mem hnd = Except.ok v ∧ v.length = o.length) := by
  constructor
  · intro h
    subst h
    rfl
  · intro o h
    subst h
    exact ⟨_, rfl, by simp⟩

theorem get_file_ref_spec_witness :
    get_file_ref (fun _ => 0) LinuxVfsIpcFileHandle.closed =
      Except.error RlsVfsIpcError.getFileFromClosedHandle ∧
    ∃ v, get_file_ref (fun _ => 0) (LinuxVfsIpcFileHandle.opened ⟨4096, 3⟩) = Except.ok v ∧
      v.length = (⟨4096, 3⟩ : OpenedLinuxVfsIpcFileHandle).length :=
  ⟨(get_file_ref_spec (fun _ => 0) _).1 rfl,
   (get_file_ref_spec (fun _ => 0) _).2 ⟨4096, 3⟩ rfl⟩

/-- Claim C2, refuted on the code: `write_reply` queues the serialized
reply on the outbound buffer *without* any `u32` length header (the spot
is marked `FIXME` in the source), so the queued bytes are the bare
payload rather than the claimed `[u32 length][payload]` layout that the
client's `blocking_read_impl` expects. -/
theorem write_reply_omits_length_header :
    (write_reply encReplyU [] connEmpty replyNode).1.write_buf = encReplyU replyNode ∧
    encReplyU replyNode ≠ u32le (encReplyU replyNode).length ++ encReplyU replyNode := by
  decide

/-- Claim C6, refuted on the code: in a `handle_write` pass that drains
the whole 3-byte buffer, the buffer afterwards still holds all 3 bytes
(the source discards the result of `split_off(start_pos)`, keeping the
*written* prefix) and write-interest is not deregistered although
nothing is pending; in a pass of two partial writes (2 bytes then 1) the
pipe receives `[1,2,1]` — byte 1 duplicated, byte 3 lost — because every
iteration writes from `&buf[0]`; `initial_write` duplicates the same way
on its wire bytes. -/
theorem handle_write_keeps_written_prefix :
    handle_write [1, 2, 3] [some 3] = ([1, 2, 3], [1, 2, 3], false) ∧
    handle_write [1, 2, 3] [some 2, some 1] = ([1, 2, 1], [1, 2, 3], false) ∧
    initial_write [1, 2, 3] [some 2, some 1] = ([1, 2, 1], [], false) := by
  decide

/-- Claim C4, refuted on the code: after a region is retired and the same
path is opened again, the fresh region's shared-memory name is
*identical* to the retired one (`/rls-42-p-0`), because `timestamp` (the
generation) is initialized to 0 and never incremented; the generation
therefore does not increase.  The companion trace shows the claim's
first half does hold: a second open while the region is still referenced
returns the same region id, allocates no new region, and just bumps the
strong count. -/
theorem reopened_region_reuses_name :
    reopen_trace = some (0, rlsName42p0, 1, rlsName42p0, 0) ∧
    double_open_trace = some (0, 0, 1, 2) := by
  decide

/-- Claim C7, refuted on the code in its "not fatal to the server" part:
a `CloseFile` request for a path absent from the connection's open-files
table makes `handle_close_request` return `CloseNonOpenedFile`, but the
`?` operators in `handle_read` and `roll_the_loop` propagate that error
out of the event loop — the server loop terminates with it instead of
treating it as recoverable. -/
theorem close_non_opened_kills_event_loop :
    roll_the_loop envUnit encReplyU serverOneConn
        [⟨7, true, false, closeFrame17, false, []⟩] =
      Except.error RlsVfsIpcError.closeNonOpenedFile := by
  decide

/-- One iteration of the `handle_read` frame loop ends in a
`DeserializeError` as soon as the payload decoder rejects the slice the
loop hands it. -/
theorem handleLoop_dec_none {μ σ : Type} (dec : List Nat → Option μ)
    (exec : σ → μ → Except RlsVfsIpcError σ) (buf : List Nat) (fuel start : Nat) (s : σ)
    (msg_len : Nat) (h1 : start + 4 ≤ buf.length)
    (h2 : readU32 (buf.drop start) = some msg_len)
    (h3 : ¬ buf.length < msg_len + start) (h4 : ¬ msg_len < 4)
    (h5 : dec ((buf.drop (start + 4)).take (msg_len - 4)) = none) :
    handleLoop dec exec buf (fuel + 1) start s =
      Except.error RlsVfsIpcError.deserializeFail := by
  simp only [handleLoop, if_pos h1, h2, if_neg h3, if_neg h4, h5]

/-- Claim C8: when the drain reached EOF (`metEof = true`) and the frame
loop over the accumulated buffer succeeded leaving remainder
`buf.drop start`: if that remainder is empty, `handle_read` succeeds
(calling only the no-op `finish_read` — the read side is simply not used
again, no state is touched); if it is non-empty, `handle_read` fails
with the fatal protocol error `PipeCloseMiddle`. -/
theorem handle_read_eof_policy {μ σ : Type} (dec : List Nat → Option μ)
    (exec : σ → μ → Except RlsVfsIpcError σ) (rbuf readData : List Nat) (s s1 : σ)
    (start : Nat)
    (h : handleLoop dec exec (rbuf ++ readData) ((rbuf ++ readData).length + 1) 0 s =
      Except.ok (s1, start)) :
    handle_read dec exec rbuf readData true s =
      (if ((rbuf ++ readData).drop start).isEmpty
       then Except.ok (s1, (rbuf ++ readData).drop start)
       else Except.error RlsVfsIpcError.pipeCloseMiddle) := by
  simp only [handle_read, h]
  simp

theorem handle_read_eof_policy_witness :
    (handleLoop decReq (fun (l : List VfsRequestMsg) m => Except.ok (l ++ [m]))
        (([] : List Nat) ++ closeFrame17) ((([] : List Nat) ++ closeFrame17).length + 1) 0 [] =
      Except.ok ([VfsRequestMsg.closeFile [112]], 17)) ∧
    handle_read decReq (fun (l : List VfsRequestMsg) m => Except.ok (l ++ [m]))
        [] closeFrame17 true [] =
      (if ((([] : List Nat) ++ closeFrame17).drop 17).isEmpty
       then Except.ok ([VfsRequestMsg.closeFile [112]], (([] : List Nat) ++ closeFrame17).drop 17)
       else Except.error RlsVfsIpcError.pipeCloseMiddle) :=
  ⟨by decide,
   handle_read_eof_policy decReq (fun (l : List VfsRequestMsg) m => Except.ok (l ++ [m]))
     [] closeFrame17 [] [VfsRequestMsg.closeFile [112]] 17 (by decide)⟩

/-- Claim C3, refuted on the code: a single complete frame produced by the
codec's own writer `blocking_write_impl` (header = payload length `L`)
is mis-framed by `handle_read`, which treats the header value as the
total frame length: it hands the decoder only `payload[0 .. L-4]` — the
payload short of its last 4 bytes — so for any payload whose decoder
rejects that truncation (as bincode's does for every request message,
whose trailing field is a length-prefixed path string) `handle_read`
returns a fatal `DeserializeError` instead of executing the request. -/
theorem handle_read_truncates_frames {μ σ : Type} (enc : μ → List Nat)
    (dec : List Nat → Option μ) (exec : σ → μ → Except RlsVfsIpcError σ) (s : σ) (m : μ)
    (h4 : 4 ≤ (enc m).length) (hlt : (enc m).length < 2 ^ 32)
    (hdec : dec ((enc m).take ((enc m).length - 4)) = none) :
    handle_read dec exec [] (blocking_write_impl enc m []).1 false s =
      Except.error RlsVfsIpcError.deserializeFail := by
  have hframe : (blocking_write_impl enc m []).1 = u32le (enc m).length ++ enc m := by
    simp [blocking_write_impl]
  have hlen : (u32le (enc m).length ++ enc m).length = 4 + (enc m).length := by
    simp [u32le]
    omega
  have hdrop : (u32le (enc m).length ++ enc m).drop 4 = enc m := by
    have := List.drop_left (u32le (enc m).length) (enc m)
    rwa [u32le_length] at this
  have hstep := handleLoop_dec_none dec exec (u32le (enc m).length ++ enc m)
    (u32le (enc m).length ++ enc m).length 0 s (enc m).length
    (by rw [hlen]; omega) (by rw [List.drop_zero, readU32_u32le_append, Nat.mod_eq_of_lt hlt])
    (by rw [hlen]; omega) (by omega)
    (by rw [show (0 : Nat) + 4 = 4 from rfl, hdrop, hdec])
  simp only [handle_read, hframe, List.nil_append, hstep]

theorem handle_read_truncates_frames_witness :
    4 ≤ (encReq (VfsRequestMsg.closeFile [97, 98])).length ∧
    (encReq (VfsRequestMsg.closeFile [97, 98])).length < 2 ^ 32 ∧
    decReq ((encReq (VfsRequestMsg.closeFile [97, 98])).take
      ((encReq (VfsRequestMsg.closeFile [97, 98])).length - 4)) = none ∧
    handle_read decReq (fun (l : List VfsRequestMsg) m => Except.ok (l ++ [m])) []
      (blocking_write_impl encReq (VfsRequestMsg.closeFile [97, 98]) []).1 false [] =
      Except.error RlsVfsIpcError.deserializeFail :=
  ⟨by decide, by decide, by decide,
   handle_read_truncates_frames encReq decReq
     (fun (l : List VfsRequestMsg) m => Except.ok (l ++ [m])) []
     (VfsRequestMsg.closeFile [97, 98]) (by decide) (by decide) (by decide)⟩

/-- Claim C5: a reference drop routed through `try_remove_last_map` (as
`handle_close_request` and `remove_server_end_point` both do, after
removing the table entry) retires the region — `MapInfo::close` unlinks
its shared-memory name and the `live_maps` entry under the given path is
removed — exactly when the dropped reference was the sole remaining
strong reference (`Rc::strong_count == 1`); otherwise only the strong
count is decremented and the region, the published name set and the
registry are untouched. -/
theorem try_remove_last_map_retires_iff_sole (S : ServerState) (rid : Nat)
    (path : List Nat) (r : RegionState) (hr : S.regions[rid]? = some r)
    (hpub : r.info.shm_name ∈ S.shm_names) :
    (r.strong = 1 →
      try_remove_last_map S rid path =
        Except.ok { S with
          regions := S.regions.set rid { r with unlinked := true, strong := 0 },
          shm_names := removeName r.info.shm_name S.shm_names,
          live_maps := aerase path S.live_maps }) ∧
    (r.strong ≠ 1 →
      try_remove_last_map S rid path =
        Except.ok { S with
          regions := S.regions.set rid { r with strong := r.strong - 1 } }) := by
  have hra : regionAt S rid = r := by simp [regionAt, hr]
  constructor
  · intro h1
    simp [try_remove_last_map, hra, h1, hpub]
  · intro h1
    simp [try_remove_last_map, hra, h1, decStrong, hr]

/-- A one-region server used to witness the retirement theorem: path
`[112]` maps to region 0 whose name `[5]` is published, strong count 1. -/
def serverC5 : ServerState := ⟨[], [⟨⟨[5], 1⟩, 1, false⟩], [([112], 0)], [[5]], 1, 0⟩

def regionC5 : RegionState := ⟨⟨[5], 1⟩, 1, false⟩

theorem try_remove_last_map_retires_iff_sole_witness :
    (serverC5.regions[0]? = some regionC5) ∧
    (regionC5.info.shm_name ∈ serverC5.shm_names) ∧
    ((regionC5.strong = 1 →
      try_remove_last_map serverC5 0 [112] =
        Except.ok { serverC5 with
          regions := serverC5.regions.set 0 { regionC5 with unlinked := true, strong := 0 },
          shm_names := removeName regionC5.info.shm_name serverC5.shm_names,
          live_maps := aerase [112] serverC5.live_maps }) ∧
    (regionC5.strong ≠ 1 →
      try_remove_last_map serverC5 0 [112] =
        Except.ok { serverC5 with
          regions := serverC5.regions.set 0 { regionC5 with strong := regionC5.strong - 1 } })) :=
  ⟨by decide, by decide,
   try_remove_last_map_retires_iff_sole serverC5 0 [112] regionC5 (by decide) (by decide)⟩

/-! ## Claim C1: blocking round-trip across arbitrary partial reads -/

/-- The accumulation loop of `blocking_read_impl`: when the chunk stream
supplies at least `target` bytes in total, the loop returns after
consuming some prefix of `k` chunks, the buffer being exactly the carried
bytes followed by everything those `k` reads returned. -/
theorem fillTo_reaches (target : Nat) (chunks : List (List Nat)) : ∀ rbuf : List Nat,
    target ≤ rbuf.length + chunks.flatten.length →
    ∃ k, fillTo target rbuf chunks = some (rbuf ++ (chunks.take k).flatten, chunks.drop k) ∧
      target ≤ (rbuf ++ (chunks.take k).flatten).length := by
  induction chunks with
  | nil =>
    intro rbuf h
    refine ⟨0, ?_, ?_⟩
    · simp only [fillTo]
      rw [if_pos (by simpa using h)]
      simp
    · simpa using h
  | cons c cs ih =>
    intro rbuf h
    by_cases hle : target ≤ rbuf.length
    · refine ⟨0, ?_, by simpa using hle⟩
      simp only [fillTo]
      rw [if_pos hle]
      simp
    · have h1 : target ≤ (rbuf ++ c).length + cs.flatten.length := by
        simp only [List.flatten_cons, List.length_append] at h
        simp only [List.length_append]
        omega
      obtain ⟨k, hk1, hk2⟩ := ih (rbuf ++ c) h1
      refine ⟨k + 1, ?_, ?_⟩
      · simp only [fillTo]
        rw [if_neg hle, hk1]
        simp [List.append_assoc]
      · simpa [List.append_assoc] using hk2

/-- Claim C1: for every message and every split of its encoded frame
(plus any surplus bytes of following frames) into successive partial
reads, writing with `blocking_write_impl` and reading with
`blocking_read_impl` from an empty carried buffer yields exactly the
message back, consuming some prefix of `k` reads, and leaves precisely
the over-read surplus (everything those `k` reads supplied beyond the
frame) in the carried buffer for the next call.  `hdec` is the opaque
codec's round-trip property; the frame length must fit the `u32` header
(`ext2.len() as u32` in the source). -/
theorem blocking_codec_roundtrip {α : Type} (enc : α → List Nat) (dec : List Nat → Option α)
    (hdec : ∀ t, dec (enc t) = some t) (m : α) (chunks : List (List Nat)) (rest : List Nat)
    (hlen : (enc m).length < 2 ^ 32)
    (hsplit : chunks.flatten = (blocking_write_impl enc m []).1 ++ rest) :
    ∃ k, blocking_read_impl dec [] chunks =
      some (m, ((chunks.take k).flatten).drop (4 + (enc m).length), chunks.drop k) := by
  have hframe : (blocking_write_impl enc m []).1 = u32le (enc m).length ++ enc m := by
    simp [blocking_write_impl]
  rw [hframe] at hsplit
  have hflen : (u32le (enc m).length ++ enc m).length = 4 + (enc m).length := by
    simp [u32le]
    omega
  have htot1 : 4 ≤ ([] : List Nat).length + chunks.flatten.length := by
    rw [hsplit]
    simp [List.length_append, u32le]
  obtain ⟨k1, hf1, hl1⟩ := fillTo_reaches 4 chunks [] htot1
  rw [List.nil_append] at hf1 hl1
  have hpre1 : (chunks.take k1).flatten <+: chunks.flatten := by
    conv_rhs => rw [← List.take_append_drop k1 chunks]
    rw [List.flatten_append]
    exact List.prefix_append _ _
  have hpre2 : u32le (enc m).length <+: chunks.flatten := by
    rw [hsplit, List.append_assoc]
    exact List.prefix_append _ _
  have hpre3 : u32le (enc m).length <+: (chunks.take k1).flatten :=
    List.prefix_of_prefix_length_le hpre2 hpre1 (by rw [u32le_length]; exact hl1)
  obtain ⟨t1, ht1⟩ := hpre3
  have hread : readU32 ((chunks.take k1).flatten) = some (enc m).length := by
    rw [← ht1, readU32_u32le_append, Nat.mod_eq_of_lt hlen]
  have hlen2 : (chunks.take k1).flatten.length + (chunks.drop k1).flatten.length =
      chunks.flatten.length := by
    conv_rhs => rw [← List.take_append_drop k1 chunks]
    rw [List.flatten_append, List.length_append]
  have htot2 : (enc m).length + 4 ≤ (chunks.take k1).flatten.length +
      (chunks.drop k1).flatten.length := by
    rw [hlen2, hsplit]
    simp [List.length_append, u32le]
  obtain ⟨k2, hf2, hl2⟩ := fillTo_reaches ((enc m).length + 4) (chunks.drop k1)
    ((chunks.take k1).flatten) htot2
  have hcomb : (chunks.take k1).flatten ++ ((chunks.drop k1).take k2).flatten =
      (chunks.take (k1 + k2)).flatten := by
    rw [List.take_add, List.flatten_append]
  rw [hcomb] at hf2 hl2
  rw [List.drop_drop k2 k1 chunks] at hf2
  have hpre4 : (chunks.take (k1 + k2)).flatten <+: chunks.flatten := by
    conv_rhs => rw [← List.take_append_drop (k1 + k2) chunks]
    rw [List.flatten_append]
    exact List.prefix_append _ _
  have hpre5 : u32le (enc m).length ++ enc m <+: chunks.flatten := by
    rw [hsplit]
    exact List.prefix_append _ _
  have hpre6 : u32le (enc m).length ++ enc m <+: (chunks.take (k1 + k2)).flatten :=
    List.prefix_of_prefix_length_le hpre5 hpre4 (by rw [hflen]; omega)
  obtain ⟨t2, ht2⟩ := hpre6
  have hdrop4 : ((chunks.take (k1 + k2)).flatten).drop 4 = enc m ++ t2 := by
    rw [← ht2, List.append_assoc]
    have h5 := List.drop_left (u32le (enc m).length) (enc m ++ t2)
    rwa [u32le_length] at h5
  have htake : (enc m ++ t2).take (enc m).length = enc m := List.take_left _ _
  refine ⟨k1 + k2, ?_⟩
  simp only [blocking_read_impl, hf1, hread, hf2, hdrop4, htake, hdec]
  rw [Nat.add_comm 4 (enc m).length]

theorem blocking_codec_roundtrip_witness :
    (∀ t : List Nat, some t = some t) ∧
    (([5, 6, 7] : List Nat).length < 2 ^ 32) ∧
    (([[3, 0], [0], [0, 5, 6], [7, 9], [4]] : List (List Nat)).flatten =
      (blocking_write_impl (fun l : List Nat => l) [5, 6, 7] []).1 ++ [9, 4]) ∧
    (∃ k, blocking_read_impl some [] [[3, 0], [0], [0, 5, 6], [7, 9], [4]] =
      some (([5, 6, 7] : List Nat),
        ((([[3, 0], [0], [0, 5, 6], [7, 9], [4]] : List (List Nat)).take k).flatten).drop
          (4 + ([5, 6, 7] : List Nat).length),
        ([[3, 0], [0], [0, 5, 6], [7, 9], [4]] : List (List Nat)).drop k)) :=
  ⟨fun _ => rfl, by decide, by decide,
   blocking_codec_roundtrip (fun l => l) some (fun _ => rfl) [5, 6, 7]
     [[3, 0], [0], [0, 5, 6], [7, 9], [4]] [9, 4] (by decide) (by decide)⟩
